import Mathlib

/-!
Verification of the HDCP 1.4 authentication engine in
drivers/gpu/drm/i915/intel_hdcp.c.

The C functions are shallowly embedded as executable Lean definitions.
Machine integers are modelled as `Nat` (all the arithmetic below stays far
under 2^32, so no wrap-around can occur for byte-valued inputs); fallible
calls return `Except Int` carrying the (negative) errno the C code returns;
external collaborators (the receiver shim, register waits, the allocator)
are supplied as explicit oracle records; register writes that matter to the
claims are recorded in an event trace.
-/

namespace IntelHdcp

/-- errno value EINVAL (22). The C code returns these negated, except for one
spot that returns a positive EINVAL. -/
def EINVAL : Int := 22

/-- errno value EPERM (1). -/
def EPERM : Int := 1

/-- errno value ENOMEM (12). -/
def ENOMEM : Int := 12

/-- errno value ENODEV (19). -/
def ENODEV : Int := 19

/-- errno value ETIMEDOUT (110). -/
def ETIMEDOUT : Int := 110

/-- errno value ENXIOErr (6). -/
def ENXIOErr : Int := 6

/-- errno value ENOENT (2). -/
def ENOENT : Int := 2

/-- Modelled from the spec: DRM_HDCP_KSV_LEN from the repository's drm_hdcp.h
(not under src/); a KSV is a fixed 5-byte (40-bit) value. -/
def DRM_HDCP_KSV_LEN : Nat := 5

/-- Modelled from the spec: the kernel helper hweight8 (not under src/),
the population count of an 8-bit value. -/
def hweight8 (b : Nat) : Nat :=
  (List.range 8).countP (fun i => b.testBit i)

/-- Embedding of intel_hdcp_is_ksv_valid (intel_hdcp.c:172): sums hweight8
over the 5 KSV bytes and compares the total with 20. Pure. -/
def intel_hdcp_is_ksv_valid (ksv : List Nat) : Bool :=
  (ksv.map hweight8).sum == 20

/-- Byte i (little-endian) of a natural number. -/
def byteOf (v i : Nat) : Nat := v / 2 ^ (8 * i) % 2 ^ 8

/-- The 5 bytes of a 40-bit value. -/
def ksvBytesOf (v : Nat) : List Nat :=
  [byteOf v 0, byteOf v 1, byteOf v 2, byteOf v 3, byteOf v 4]

/-- Number of set bits among the k lowest bits of v. -/
def popBelow (v k : Nat) : Nat :=
  (List.range k).countP (fun i => v.testBit i)

/-- Connector-side revocation state: the flat revoked-KSV byte buffer
(`revocated_ksv_list`, `none` = NULL), its entry count, and the identifier of
the last applied SRM blob (fields of struct intel_connector). -/
structure Connector where
  revocated_ksv_list : Option (List Nat)
  revocated_ksv_cnt : Nat
  srm_blob_id : Nat
deriving DecidableEq, Repr

/-- Embedding of intel_hdcp_ksvs_revocated (intel_hdcp.c:195): for each of
the ksv_count candidates (5-byte slices of `ksvs`) it scans the connector's
revoked list; a candidate whose 5 bytes all equal an entry's 5 bytes yields
true. An empty count or NULL list yields false. -/
def intel_hdcp_ksvs_revocated (c : Connector) (ksvs : List Nat) (ksv_count : Nat) : Bool :=
  match c.revocated_ksv_list with
  | none => false
  | some rev =>
    if c.revocated_ksv_cnt = 0 then false
    else
      (List.range ksv_count).any (fun cnt =>
        (List.range c.revocated_ksv_cnt).any (fun i =>
          (List.range DRM_HDCP_KSV_LEN).all (fun j =>
            ksvs.getD (DRM_HDCP_KSV_LEN * cnt + j) 0 ==
              rev.getD (DRM_HDCP_KSV_LEN * i + j) 0)))

/-- Modelled from the spec: DRM_HDCP_1_4_VRL_LENGTH_SIZE (3 bytes) from the
repository's drm headers (not under src/). -/
def DRM_HDCP_1_4_VRL_LENGTH_SIZE : Nat := 3

/-- Modelled from the spec: DRM_HDCP_1_4_DCP_SIG_SIZE (40 bytes) from the
repository's drm headers (not under src/). -/
def DRM_HDCP_1_4_DCP_SIG_SIZE : Nat := 40

/-- Modelled from the spec: DRM_HDCP_1_4_SRM_ID (8), the expected source
identifier constant, from the repository's drm headers (not under src/). -/
def DRM_HDCP_1_4_SRM_ID : Nat := 8

/-- Modelled from the spec: sizeof(struct cp_srm_header) (not under src/):
source identifier and reserved bits (2 bytes), version (2 bytes),
generation number (1 byte). -/
def CP_SRM_HEADER_SIZE : Nat := 5

/-- Modelled from the spec: the header's source identifier bitfield
(spec_indicator.srm_id of struct cp_srm_header, not under src/), modelled as
the low nibble of the first header byte. -/
def headerSrmId (blob : List Nat) : Nat := blob.getD 0 0 % 16

/-- Fixed overhead inside the combined VRL length field: the length field
itself plus the DCP signature. -/
def SRM_MIN_OVERHEAD : Nat :=
  DRM_HDCP_1_4_VRL_LENGTH_SIZE + DRM_HDCP_1_4_DCP_SIG_SIZE

/-- First-pass segment walk of intel_hdcp_get_revocated_ksv_count
(intel_hdcp.c:910), a do-while: read the 1-byte device count at `pos`,
account cnt*5+1 bytes, repeat while fewer than `len` bytes were parsed.
`fuel` bounds the recursion; each step consumes at least one payload byte,
so `fuel = len` never runs out. No overrun check is performed, exactly as
in the source. -/
def ksvCountAux (buf : List Nat) (len : Nat) : Nat → Nat → Nat → Nat
  | 0, _, _ => 0
  | fuel + 1, pos, parsed =>
    let c := buf.getD pos 0
    let sz := c * DRM_HDCP_KSV_LEN + 1
    if parsed + sz < len then c + ksvCountAux buf len fuel (pos + sz) (parsed + sz)
    else c

/-- Embedding of intel_hdcp_get_revocated_ksv_count (intel_hdcp.c:910). -/
def intel_hdcp_get_revocated_ksv_count (buf : List Nat) (len : Nat) : Nat :=
  ksvCountAux buf len len 0 0

/-- Second-pass segment walk of intel_hdcp_get_revocated_ksvs
(intel_hdcp.c:926): same traversal, additionally copying each segment's
cnt*5 KSV bytes; returns the copied bytes and the running count. -/
def ksvListAux (buf : List Nat) (len : Nat) : Nat → Nat → Nat → List Nat × Nat
  | 0, _, _ => ([], 0)
  | fuel + 1, pos, parsed =>
    let c := buf.getD pos 0
    let sz := c * DRM_HDCP_KSV_LEN
    let chunk := (List.range sz).map (fun k => buf.getD (pos + 1 + k) 0)
    if parsed + sz + 1 < len then
      let r := ksvListAux buf len fuel (pos + sz + 1) (parsed + sz + 1)
      (chunk ++ r.1, c + r.2)
    else (chunk, c)

/-- Embedding of intel_hdcp_get_revocated_ksvs (intel_hdcp.c:926). -/
def intel_hdcp_get_revocated_ksvs (buf : List Nat) (len : Nat) : List Nat × Nat :=
  ksvListAux buf len len 0 0

/-- Embedding of intel_hdcp_parse_srm (intel_hdcp.c:952). `allocOk` models
whether the kzalloc of the new list succeeds. On the allocation-failure
path the C code has already freed the previous list and assigns the NULL
result, leaving the count untouched; on the (defensive) double-count
mismatch path it zeroes the count and frees the fresh list, leaving the
pointer dangling (modelled as `none`). -/
def intel_hdcp_parse_srm (blob : List Nat) (allocOk : Bool) (c : Connector) :
    Except Int Unit × Connector :=
  if blob.length < CP_SRM_HEADER_SIZE + DRM_HDCP_1_4_VRL_LENGTH_SIZE +
      DRM_HDCP_1_4_DCP_SIG_SIZE then
    (Except.error (-EINVAL), c)
  else if headerSrmId blob ≠ DRM_HDCP_1_4_SRM_ID then
    (Except.error (-EINVAL), c)
  else
    let buf := blob.drop CP_SRM_HEADER_SIZE
    let vrl_length := buf.getD 0 0 <<< 16 ||| buf.getD 1 0 <<< 8 ||| buf.getD 2 0
    if blob.length < CP_SRM_HEADER_SIZE + vrl_length ∨ vrl_length < SRM_MIN_OVERHEAD then
      (Except.error (-EINVAL), c)
    else
      let vrls := vrl_length - SRM_MIN_OVERHEAD
      if vrls = 0 then (Except.error (-EINVAL), c)
      else
        let buf2 := buf.drop DRM_HDCP_1_4_VRL_LENGTH_SIZE
        let ksv_count := intel_hdcp_get_revocated_ksv_count buf2 vrls
        if ksv_count = 0 then (Except.ok (), c)
        else if allocOk = false then
          (Except.error (-ENOMEM), { c with revocated_ksv_list := none })
        else
          let r := intel_hdcp_get_revocated_ksvs buf2 vrls
          if r.2 ≠ ksv_count then
            (Except.error (-EINVAL),
             { c with revocated_ksv_cnt := 0, revocated_ksv_list := none })
          else
            (Except.ok (), { c with revocated_ksv_cnt := ksv_count,
                                    revocated_ksv_list := some r.1 })

/-- Embedding of intel_hdcp_update_srm (intel_hdcp.c:1030): looks up the
blob (`none` models a failed lookup), re-parses, and records the new blob
identifier only when the parse returned 0. -/
def intel_hdcp_update_srm (blobLookup : Option (List Nat)) (allocOk : Bool)
    (srm_blob_id : Nat) (c : Connector) : Connector :=
  match blobLookup with
  | none => c
  | some blob =>
    let r := intel_hdcp_parse_srm blob allocOk c
    match r.1 with
    | Except.ok _ => { r.2 with srm_blob_id := srm_blob_id }
    | Except.error _ => r.2

/-- The SHA text-width control settings (HDCP_SHA1_TEXT_0/8/16/24/32 bits of
HDCP_REP_CTL): how many bits of the next 32-bit word are real text, the rest
being taken from the hardware-injected M0 secret. -/
inductive ShaW
  | t0
  | t8
  | t16
  | t24
  | t32
deriving DecidableEq, Repr

/-- Observable actions of the Phase-2 repeater authenticator: text-width
control writes, 32-bit HDCP_SHA_TEXT words, V-prime register loads, the
KSV-FIFO allocation, the revocation query, the complete-hash command, and a
marker for the fall-through invalid-leftovers branch. -/
inductive Ev
  | repCtl (w : ShaW)
  | shaText (v : Nat)
  | vprime (i v : Nat)
  | fifoAlloc (sz : Nat)
  | revQuery
  | completeHash
  | invalidLeftovers
deriving DecidableEq, Repr

/-- External collaborators of intel_hdcp_auth_downstream: the KSV-ready
poll, the BSTATUS read, the allocator, the KSV-FIFO read, the V-prime part
reads, the per-write SHA1_READY wait (indexed by how many HDCP_SHA_TEXT
writes happened so far), the SHA1_COMPLETE wait, and the V-match bit. -/
structure DsOracle where
  pollKsv : Except Int Unit
  bstatus : Except Int (Nat × Nat)
  allocOk : Bool
  ksvFifo : Except Int (List Nat)
  vprimePart : Nat → Except Int Nat
  shaReady : Nat → Bool
  hashAck : Bool
  vMatch : Bool

/-- Hash-framer state: the accumulator word, the leftover-byte count, the
byte cursor, the number of HDCP_SHA_TEXT writes so far, and the event
trace. -/
structure LoopSt where
  sha_text : Nat
  sha_leftovers : Nat
  sha_idx : Nat
  wcount : Nat
  trace : List Ev
deriving DecidableEq, Repr

/-- Embedding of intel_write_sha_text (intel_hdcp.c:138): the register write
always happens (recorded in the trace); the Bool is whether the subsequent
SHA1_READY wait succeeded. -/
def writeSha (o : DsOracle) (v : Nat) (st : LoopSt) : Bool × LoopSt :=
  (o.shaReady st.wcount,
   { st with trace := st.trace ++ [Ev.shaText v], wcount := st.wcount + 1 })

/-- The C idiom `for (j = 0; j < cnt; j++) t |= ksv[off+j] << ((4-j-1)*8)`
used by the KSV streaming loop (intel_hdcp.c:317 and :332). -/
def orBytesTop (t : Nat) (ksv : List Nat) (off cnt : Nat) : Nat :=
  (List.range cnt).foldl (fun acc j => acc ||| ksv.getD (off + j) 0 <<< ((4 - j - 1) * 8)) t

/-- The 5-byte slices of the KSV FIFO, one per downstream device. -/
def ksvChunks (ksvs : List Nat) (n : Nat) : List (List Nat) :=
  (List.range n).map (fun i => (ksvs.drop (DRM_HDCP_KSV_LEN * i)).take DRM_HDCP_KSV_LEN)

/-- Embedding of the KSV streaming loop of intel_hdcp_auth_downstream
(intel_hdcp.c:311-349): per device, top up the accumulator with the first
`4 - sha_leftovers` KSV bytes and write it, reassert the block-start
control every 64 bytes, store the remaining KSV bytes as new leftovers, and
write once more when a full word of leftovers accumulated. -/
def ksvLoop (o : DsOracle) : List (List Nat) → LoopSt → Except Int Unit × LoopSt
  | [], st => (Except.ok (), st)
  | ksv :: rest, st =>
    let sha_empty := 4 - st.sha_leftovers
    let t1 := orBytesTop st.sha_text ksv 0 sha_empty
    let w1 := writeSha o t1 { st with sha_text := t1 }
    if w1.1 = false then (Except.error (-ETIMEDOUT), w1.2)
    else
      let st2 : LoopSt := { w1.2 with sha_idx := w1.2.sha_idx + 4 }
      let st3 : LoopSt :=
        if st2.sha_idx % 64 = 0 then
          { st2 with trace := st2.trace ++ [Ev.repCtl ShaW.t32] }
        else st2
      let lft := DRM_HDCP_KSV_LEN - sha_empty
      let t2 := orBytesTop 0 ksv sha_empty lft
      let st4 := { st3 with sha_leftovers := lft, sha_text := t2 }
      if 4 > lft then ksvLoop o rest st4
      else
        let w2 := writeSha o t2 st4
        if w2.1 = false then (Except.error (-ETIMEDOUT), w2.2)
        else
          ksvLoop o rest
            { w2.2 with sha_leftovers := 0, sha_text := 0, sha_idx := w2.2.sha_idx + 4 }

/-- Emit a sequence of (optional text-width control, word) pairs, bumping
the byte cursor by 4 after each successful write, aborting with -ETIMEDOUT
on a failed SHA1_READY wait, exactly as each branch of the BSTATUS/M0
splice does. -/
def emitSeq (o : DsOracle) : List (Option ShaW × Nat) → LoopSt → Except Int Unit × LoopSt
  | [], st => (Except.ok (), st)
  | (w, v) :: rest, st =>
    let st0 :=
      match w with
      | some ctl => { st with trace := st.trace ++ [Ev.repCtl ctl] }
      | none => st
    let r := writeSha o v st0
    if r.1 = false then (Except.error (-ETIMEDOUT), r.2)
    else emitSeq o rest { r.2 with sha_idx := r.2.sha_idx + 4 }

/-- Embedding of the BSTATUS/M0 splice of intel_hdcp_auth_downstream
(intel_hdcp.c:357-455): one of four fixed write sequences selected by the
leftover count, with the fall-through branch recording `invalidLeftovers`
and failing with -EINVAL. -/
def tailSplice (o : DsOracle) (b0 b1 : Nat) (st : LoopSt) : Except Int Unit × LoopSt :=
  if st.sha_leftovers = 0 then
    emitSeq o [(some ShaW.t16, b0 <<< 8 ||| b1), (some ShaW.t0, 0), (some ShaW.t16, 0)] st
  else if st.sha_leftovers = 1 then
    emitSeq o
      [(some ShaW.t24, (st.sha_text ||| b0 <<< 16 ||| b1 <<< 8) &&& 0xffffff00 >>> 8),
       (some ShaW.t0, 0), (some ShaW.t8, 0)] st
  else if st.sha_leftovers = 2 then
    emitSeq o
      [(some ShaW.t32, st.sha_text ||| b0 <<< 24 ||| b1 <<< 16),
       (some ShaW.t0, 0), (none, 0)] st
  else if st.sha_leftovers = 3 then
    emitSeq o
      [(some ShaW.t32, st.sha_text ||| b0 <<< 24), (some ShaW.t8, b1),
       (some ShaW.t0, 0), (some ShaW.t24, 0)] st
  else
    (Except.error (-EINVAL), { st with trace := st.trace ++ [Ev.invalidLeftovers] })

/-- Embedding of the zero-fill loop (intel_hdcp.c:459-464): write zero words
while the byte cursor is below 60 within the current 64-byte block. The
cursor grows by 4 per step, so 16 units of fuel always suffice. -/
def zeroFill (o : DsOracle) : Nat → LoopSt → Except Int Unit × LoopSt
  | 0, st => (Except.ok (), st)
  | fuel + 1, st =>
    if st.sha_idx % 64 < 60 then
      let r := writeSha o 0 st
      if r.1 = false then (Except.error (-ETIMEDOUT), r.2)
      else zeroFill o fuel { r.2 with sha_idx := r.2.sha_idx + 4 }
    else (Except.ok (), st)

/-- Modelled from the spec: DRM_HDCP_V_PRIME_NUM_PARTS (not under src/);
V is the 20-byte SHA-1 value, read as five 32-bit parts. -/
def DRM_HDCP_V_PRIME_NUM_PARTS : Nat := 5

/-- The V-prime read loop (intel_hdcp.c:289-294), recording each part
loaded into the comparison registers; an error drops the later reads, as
the C code returns immediately. -/
def vprimeReads (o : DsOracle) : Nat → Nat → Except Int Unit × List Ev
  | _, 0 => (Except.ok (), [])
  | i, k + 1 =>
    match o.vprimePart i with
    | Except.error e => (Except.error e, [])
    | Except.ok v =>
      let r := vprimeReads o (i + 1) k
      (r.1, Ev.vprime i v :: r.2)

/-- Embedding of intel_hdcp_auth_downstream (intel_hdcp.c:229): Part 2 of
the HDCP authorization procedure. Returns the result together with the
trace of observable actions. The device-count and cascade fields of BSTATUS
are decoded with the DRM_HDCP masks (modelled from the spec: bits 6:0 of
bstatus[0] are the device count, bit 7 the MAX_DEVICES flag, bit 3 of
bstatus[1] the MAX_CASCADE flag). -/
def intel_hdcp_auth_downstream (o : DsOracle) (c : Connector) :
    Except Int Unit × List Ev :=
  match o.pollKsv with
  | Except.error e => (Except.error e, [])
  | Except.ok _ =>
    match o.bstatus with
    | Except.error e => (Except.error e, [])
    | Except.ok bs =>
      let b0 := bs.1
      let b1 := bs.2
      if b0 &&& 0x80 ≠ 0 ∨ b1 &&& 0x08 ≠ 0 then (Except.error (-EPERM), [])
      else
        let num_downstream := b0 &&& 0x7f
        if num_downstream = 0 then (Except.error (-EINVAL), [])
        else
          let tr0 := [Ev.fifoAlloc (num_downstream * DRM_HDCP_KSV_LEN)]
          if o.allocOk = false then (Except.error (-ENOMEM), tr0)
          else
            match o.ksvFifo with
            | Except.error e => (Except.error e, tr0)
            | Except.ok ksv_fifo =>
              let tr1 := tr0 ++ [Ev.revQuery]
              if intel_hdcp_ksvs_revocated c ksv_fifo num_downstream then
                (Except.error (-EPERM), tr1)
              else
                let vp := vprimeReads o 0 DRM_HDCP_V_PRIME_NUM_PARTS
                match vp.1 with
                | Except.error e => (Except.error e, tr1 ++ vp.2)
                | Except.ok _ =>
                  let st0 : LoopSt := ⟨0, 0, 0, 0, tr1 ++ vp.2 ++ [Ev.repCtl ShaW.t32]⟩
                  let r1 := ksvLoop o (ksvChunks ksv_fifo num_downstream) st0
                  match r1.1 with
                  | Except.error e => (Except.error e, r1.2.trace)
                  | Except.ok _ =>
                    let r2 := tailSplice o b0 b1 r1.2
                    match r2.1 with
                    | Except.error e => (Except.error e, r2.2.trace)
                    | Except.ok _ =>
                      let st5 := { r2.2 with trace := r2.2.trace ++ [Ev.repCtl ShaW.t32] }
                      let r3 := zeroFill o 16 st5
                      match r3.1 with
                      | Except.error e => (Except.error e, r3.2.trace)
                      | Except.ok _ =>
                        let wf := writeSha o ((num_downstream * 5 + 10) * 8) r3.2
                        if wf.1 = false then (Except.error (-ETIMEDOUT), wf.2.trace)
                        else
                          let st7 := { wf.2 with trace := wf.2.trace ++ [Ev.completeHash] }
                          if o.hashAck = false then (Except.error (-ETIMEDOUT), st7.trace)
                          else if o.vMatch = false then (Except.error (-ENXIOErr), st7.trace)
                          else (Except.ok (), st7.trace)

/-- External collaborators of intel_hdcp_auth: a NULL digital port, the
optional HDCP-capability query (`none` models a shim without the hook), the
An-ready register wait, the An/Aksv transmission, the BKSV reads (indexed
by attempt), the repeater-presence query, the signalling toggle, the
R0-ready wait, the Ri-prime reads and per-attempt match bit, and the final
encryption-confirmation wait. -/
structure AuthOracle where
  digPortNull : Bool
  capQuery : Option (Except Int Bool)
  waitAnReady : Bool
  writeAnAksv : Except Int Unit
  readBksv : Nat → Except Int (List Nat)
  repeaterPresent : Except Int Bool
  toggleSig : Except Int Unit
  waitR0 : Bool
  readRi : Nat → Except Int Nat
  riMatch : Nat → Bool
  waitEnc : Bool

/-- The BKSV retry loop of intel_hdcp_auth (intel_hdcp.c:560-566): up to
`tries` reads, stopping at the first structurally valid KSV; `none` means
the budget was exhausted with no valid value. -/
def bksvTry (o : AuthOracle) : Nat → Nat → Except Int (Option (List Nat))
  | _, 0 => Except.ok none
  | i, fuel + 1 =>
    match o.readBksv i with
    | Except.error e => Except.error e
    | Except.ok b =>
      if intel_hdcp_is_ksv_valid b then Except.ok (some b)
      else bksvTry o (i + 1) fuel

/-- The Ri-prime retry loop of intel_hdcp_auth (intel_hdcp.c:622-633): up
to `tries` read-write-poll rounds, true at the first match. -/
def riTry (o : AuthOracle) : Nat → Nat → Except Int Bool
  | _, 0 => Except.ok false
  | i, fuel + 1 =>
    match o.readRi i with
    | Except.error e => Except.error e
    | Except.ok _ =>
      if o.riMatch i then Except.ok true else riTry o (i + 1) fuel

/-- The HDCP-capability gate of intel_hdcp_auth (intel_hdcp.c:526-534): if
the shim exposes the query, a query error propagates and a not-capable
panel is -EINVAL; otherwise (no hook, or capable) the handshake goes on. -/
def capCheck (o : AuthOracle) : Except Int Unit :=
  match o.capQuery with
  | some (Except.error e) => Except.error e
  | some (Except.ok false) => Except.error (-EINVAL)
  | _ => Except.ok ()

/-- Embedding of intel_hdcp_auth (intel_hdcp.c:493): Part 1 of the HDCP
authorization procedure, handing off to intel_hdcp_auth_downstream when a
repeater is present. A NULL digital port returns positive EINVAL, exactly
as the source does (`return EINVAL;`, intel_hdcp.c:240/516). -/
def intel_hdcp_auth (o : AuthOracle) (dso : DsOracle) (c : Connector) : Except Int Unit :=
  if o.digPortNull then Except.error EINVAL
  else
    match capCheck o with
    | Except.error e => Except.error e
    | Except.ok _ =>
      if o.waitAnReady = false then Except.error (-ETIMEDOUT)
      else
        match o.writeAnAksv with
        | Except.error e => Except.error e
        | Except.ok _ =>
          match bksvTry o 0 2 with
          | Except.error e => Except.error e
          | Except.ok none => Except.error (-ENODEV)
          | Except.ok (some bksv) =>
            if intel_hdcp_ksvs_revocated c bksv 1 then Except.error (-EPERM)
            else
              match o.repeaterPresent with
              | Except.error e => Except.error e
              | Except.ok rp =>
                match o.toggleSig with
                | Except.error e => Except.error e
                | Except.ok _ =>
                  if o.waitR0 = false then Except.error (-ETIMEDOUT)
                  else
                    match riTry o 0 3 with
                    | Except.error e => Except.error e
                    | Except.ok false => Except.error (-ETIMEDOUT)
                    | Except.ok true =>
                      if o.waitEnc = false then Except.error (-ETIMEDOUT)
                      else if rp then (intel_hdcp_auth_downstream dso c).1
                      else Except.ok ()

/-- The published content-protection tri-state. -/
inductive CpVal
  | undesired
  | desired
  | enabled
deriving DecidableEq, Repr

/-- Session state visible to the orchestrator entry points: whether an
hdcp_shim is attached and the current hdcp_value. -/
structure LinkSession where
  hasShim : Bool
  hdcp_value : CpVal
deriving DecidableEq, Repr

/-- Observable actions of intel_hdcp_check_link: the _intel_hdcp_disable
call, the _intel_hdcp_enable call, and a schedule of hdcp_prop_work. -/
inductive LinkAct
  | disableAttempt
  | enableAttempt
  | propWork
deriving DecidableEq, Repr

/-- External collaborators of intel_hdcp_check_link: the encryption status
bit of PORT_HDCP_STATUS, the shim's check_link verdict, and the outcomes of
the internal disable and enable helpers. -/
structure LinkOracle where
  encStatus : Bool
  checkLink : Bool
  disableRes : Except Int Unit
  enableRes : Except Int Unit

/-- Embedding of intel_hdcp_check_link (intel_hdcp.c:1062): Part 3 of the
HDCP procedure, the link-integrity monitor body. Returns (return value,
new hdcp_value, actions). On success _intel_hdcp_enable itself publishes
ENABLED (intel_hdcp.c:718), which is reflected in the success branch. -/
def intel_hdcp_check_link (o : LinkOracle) (s : LinkSession) :
    Int × CpVal × List LinkAct :=
  if s.hasShim = false then (-ENOENT, s.hdcp_value, [])
  else if s.hdcp_value = CpVal.undesired then (0, s.hdcp_value, [])
  else if o.encStatus = false then (-ENXIOErr, CpVal.desired, [LinkAct.propWork])
  else if o.checkLink then
    if s.hdcp_value ≠ CpVal.undesired then (0, CpVal.enabled, [LinkAct.propWork])
    else (0, s.hdcp_value, [])
  else
    match o.disableRes with
    | Except.error e => (e, CpVal.desired, [LinkAct.disableAttempt, LinkAct.propWork])
    | Except.ok _ =>
      match o.enableRes with
      | Except.error e =>
        (e, CpVal.desired,
         [LinkAct.disableAttempt, LinkAct.enableAttempt, LinkAct.propWork])
      | Except.ok _ =>
        (0, CpVal.enabled, [LinkAct.disableAttempt, LinkAct.enableAttempt])

/-- Embedding of intel_hdcp_disable (intel_hdcp.c:844). `teardown` is the
outcome of _intel_hdcp_disable. Returns (return value, new session,
whether the hardware teardown was performed). -/
def intel_hdcp_disable (teardown : Except Int Unit) (s : LinkSession) :
    Int × LinkSession × Bool :=
  if s.hasShim = false then (-ENOENT, s, false)
  else if s.hdcp_value ≠ CpVal.undesired then
    ((match teardown with
      | Except.ok _ => 0
      | Except.error e => e),
     { s with hdcp_value := CpVal.undesired }, true)
  else (0, s, false)

/-- A connector with no revocation store and blob id 0. -/
def connectorEmpty : Connector := ⟨none, 0, 0⟩

/-- Oracle for a fully successful Phase-2 run against a repeater reporting
2 downstream devices (BSTATUS = 0x02, 0x02) whose KSV FIFO is all zeros. -/
def dsOracleTwoDevices : DsOracle :=
  ⟨Except.ok (), Except.ok (2, 2), true, Except.ok (List.replicate 10 0),
   fun _ => Except.ok 0, fun _ => true, true, true⟩

/-- Oracle for a repeater reporting a device count of zero (BSTATUS =
0x00, 0x00) with every external call succeeding. -/
def dsOracleZeroDevices : DsOracle :=
  ⟨Except.ok (), Except.ok (0, 0), true, Except.ok [],
   fun _ => Except.ok 0, fun _ => true, true, true⟩

/-- A well-formed SRM blob whose single VRL segment declares 1 device while
only 1 payload byte remains: header (srm id 8), vrl length field 44 (= 3
length + 40 signature + 1 payload), the overrunning count byte, and a
40-byte all-zero signature. -/
def blobOverrun : List Nat := [8, 0, 0, 0, 0] ++ [0, 0, 44] ++ [1] ++ List.replicate 40 0

/-- A well-formed SRM blob with one VRL segment holding one KSV
(9,9,9,9,9): vrl length field 49 = 3 + 40 + 6 payload bytes. -/
def blobOneKsv : List Nat :=
  [8, 0, 0, 0, 0] ++ [0, 0, 49] ++ [1, 9, 9, 9, 9, 9] ++ List.replicate 40 0

/-- A connector holding a 1-entry revocation store. -/
def connectorOneKsv : Connector := ⟨some [1, 2, 3, 4, 5], 1, 0⟩

/-- C1: the claim asserts that for leftover 2 the emitted 32-bit word
combines the 2 leftover KSV bytes with both BSTATUS bytes — per the spec's
bit-for-bit SHA-1 framing this is the packed word l0‖l1‖bstatus[0]‖
bstatus[1].  On a run with 2 downstream devices (leftover 2), all-zero
KSVs and BSTATUS = (2,2), the code instead ORs the BSTATUS bytes on top of
the leftover bytes (intel_hdcp.c:408), emitting 0x02020000 and never the
packed word 0x00000202: the low 16 bits that should carry BSTATUS are
zero-filled.  The run nevertheless completes successfully. -/
theorem auth_downstream_leftover2_tail_diverges :
    (intel_hdcp_auth_downstream dsOracleTwoDevices connectorEmpty).1 = Except.ok () ∧
    Ev.shaText 0x02020000 ∈ (intel_hdcp_auth_downstream dsOracleTwoDevices connectorEmpty).2 ∧
    Ev.shaText 0x00000202 ∉ (intel_hdcp_auth_downstream dsOracleTwoDevices connectorEmpty).2 :=
  ⟨rfl, by decide, by decide⟩

/-- C3: the VRL segment walk performs no overrun check.  On `blobOverrun`
the declared payload length is 1 byte while the first segment's count byte
(1) declares a 6-byte segment; the claim demands a parse failure, but the
code walks past the payload into the signature area and returns success,
installing a store built from the 5 signature bytes that follow the count
byte. -/
theorem parse_srm_segment_overrun_accepted :
    (44 : Nat) - SRM_MIN_OVERHEAD = 1 ∧
    (blobOverrun.drop (CP_SRM_HEADER_SIZE + DRM_HDCP_1_4_VRL_LENGTH_SIZE)).getD 0 0 *
      DRM_HDCP_KSV_LEN + 1 = 6 ∧
    intel_hdcp_parse_srm blobOverrun true connectorEmpty =
      (Except.ok (), ⟨some [0, 0, 0, 0, 0], 1, 0⟩) :=
  ⟨rfl, rfl, rfl⟩

/-- C2 counterexample: parsing `blobOneKsv` with the allocation failing
frees the previous revocation list before noticing the failure: the parse
fails with -ENOMEM yet the connector is left with a NULL list and the
stale previous count, so the previous store is not intact. -/
theorem parse_srm_alloc_failure_destroys_store :
    (intel_hdcp_parse_srm blobOneKsv false connectorOneKsv).1 = Except.error (-ENOMEM) ∧
    (intel_hdcp_parse_srm blobOneKsv false connectorOneKsv).2 ≠ connectorOneKsv ∧
    (intel_hdcp_parse_srm blobOneKsv false connectorOneKsv).2.revocated_ksv_list = none ∧
    (intel_hdcp_parse_srm blobOneKsv false connectorOneKsv).2.revocated_ksv_cnt =
      connectorOneKsv.revocated_ksv_cnt :=
  ⟨rfl, by decide, rfl, rfl⟩

/-- C7: when the repeater reports a downstream device count of zero (and
the device/cascade limit flags are clear), Phase 2 fails with -EINVAL and
its action trace is empty: no KSV-FIFO allocation, no revocation query, no
V-prime load and no hash word was emitted. -/
theorem auth_downstream_zero_devices (o : DsOracle) (c : Connector) (b0 b1 : Nat)
    (hp : o.pollKsv = Except.ok ()) (hb : o.bstatus = Except.ok (b0, b1))
    (hdev : b0 &&& 0x80 = 0) (hcas : b1 &&& 0x08 = 0) (hn : b0 &&& 0x7f = 0) :
    intel_hdcp_auth_downstream o c = (Except.error (-EINVAL), []) := by
  unfold intel_hdcp_auth_downstream
  rw [hp, hb]
  simp [hdev, hcas, hn]

/-- Witness for C7 at a concrete oracle reporting BSTATUS = (0,0). -/
theorem auth_downstream_zero_devices_witness :
    intel_hdcp_auth_downstream dsOracleZeroDevices connectorEmpty =
      (Except.error (-EINVAL), []) :=
  auth_downstream_zero_devices dsOracleZeroDevices connectorEmpty 0 0 rfl rfl rfl rfl rfl

/-- A session with a shim attached, currently in the enabled state. -/
def sessionEnabled : LinkSession := ⟨true, CpVal.enabled⟩

/-- A link-monitor oracle: still encrypting, shim link check fails, the
disable step fails with -ETIMEDOUT, the enable step would succeed. -/
def linkOracleDisableFails : LinkOracle :=
  ⟨true, false, Except.error (-ETIMEDOUT), Except.ok ()⟩

/-- C8 counterexample: with encryption still on and the link check
failing, a disable error does NOT leave the re-enable attempted — the code
returns straight after surfacing the disable error (intel_hdcp.c:1100-1106),
contradicting the claim that the re-enable is attempted even when the
disable step errors. -/
theorem check_link_disable_error_skips_reenable :
    (intel_hdcp_check_link linkOracleDisableFails sessionEnabled).1 = -ETIMEDOUT ∧
    LinkAct.disableAttempt ∈
      (intel_hdcp_check_link linkOracleDisableFails sessionEnabled).2.2 ∧
    LinkAct.enableAttempt ∉
      (intel_hdcp_check_link linkOracleDisableFails sessionEnabled).2.2 :=
  ⟨rfl, by decide, by decide⟩

/-- C8 amended: when encryption is still on but the shim's link check
fails, a disable-then-enable cycle is started; a disable error is surfaced,
demotes the state to Desired and SUPPRESSES the re-enable attempt; when the
disable succeeds the re-enable is attempted, and a failed re-enable
surfaces its error and demotes the state to Desired. -/
theorem check_link_retry_cycle (o : LinkOracle) (s : LinkSession)
    (hs : s.hasShim = true) (hv : s.hdcp_value ≠ CpVal.undesired)
    (he : o.encStatus = true) (hc : o.checkLink = false) :
    (∀ e, o.disableRes = Except.error e →
      intel_hdcp_check_link o s =
        (e, CpVal.desired, [LinkAct.disableAttempt, LinkAct.propWork])) ∧
    (o.disableRes = Except.ok () → ∀ e, o.enableRes = Except.error e →
      intel_hdcp_check_link o s =
        (e, CpVal.desired,
         [LinkAct.disableAttempt, LinkAct.enableAttempt, LinkAct.propWork])) ∧
    (o.disableRes = Except.ok () → o.enableRes = Except.ok () →
      intel_hdcp_check_link o s =
        (0, CpVal.enabled, [LinkAct.disableAttempt, LinkAct.enableAttempt])) := by
  refine ⟨fun e hd => ?_, fun hd e hen => ?_, fun hd hen => ?_⟩ <;>
      unfold intel_hdcp_check_link <;> rw [hs, hc, he] <;> simp [hv, hd]
  · rw [hen]
  · rw [hen]

/-- Witness for C8 (amended) at the concrete disable-fails oracle. -/
theorem check_link_retry_cycle_witness :
    intel_hdcp_check_link linkOracleDisableFails sessionEnabled =
      (-ETIMEDOUT, CpVal.desired, [LinkAct.disableAttempt, LinkAct.propWork]) :=
  (check_link_retry_cycle linkOracleDisableFails sessionEnabled rfl (by decide) rfl rfl).1
    (-ETIMEDOUT) rfl

/-- C9: with a shim attached, a second disable() immediately after a
disable() (which always leaves hdcp_value Undesired) performs no hardware
teardown, returns 0 and leaves the state Undesired — for any outcomes of
the two teardown attempts. -/
theorem disable_idempotent (s : LinkSession) (t1 t2 : Except Int Unit)
    (hs : s.hasShim = true) :
    (intel_hdcp_disable t2 (intel_hdcp_disable t1 s).2.1).1 = 0 ∧
    (intel_hdcp_disable t2 (intel_hdcp_disable t1 s).2.1).2.2 = false ∧
    (intel_hdcp_disable t2 (intel_hdcp_disable t1 s).2.1).2.1.hdcp_value =
      CpVal.undesired := by
  unfold intel_hdcp_disable
  rw [hs]
  by_cases h : s.hdcp_value = CpVal.undesired <;> simp [h, hs]

/-- Witness for C9: two disables on an enabled session with a failing then
succeeding teardown. -/
theorem disable_idempotent_witness :
    (intel_hdcp_disable (Except.ok ())
      (intel_hdcp_disable (Except.error (-ETIMEDOUT)) sessionEnabled).2.1).1 = 0 ∧
    (intel_hdcp_disable (Except.ok ())
      (intel_hdcp_disable (Except.error (-ETIMEDOUT)) sessionEnabled).2.1).2.2 = false ∧
    (intel_hdcp_disable (Except.ok ())
      (intel_hdcp_disable (Except.error (-ETIMEDOUT)) sessionEnabled).2.1).2.1.hdcp_value =
      CpVal.undesired :=
  disable_idempotent sessionEnabled (Except.error (-ETIMEDOUT)) (Except.ok ()) rfl

theorem popBelow_add (v m k : Nat) :
    popBelow v (m + k) = popBelow v m + (List.range k).countP (fun j => v.testBit (m + j)) := by
  simp [popBelow, List.range_add, List.countP_append, List.countP_map, Function.comp_def]

theorem testBit_div_pow (v m j : Nat) : (v / 2 ^ m).testBit j = v.testBit (m + j) := by
  simp [Nat.testBit_to_div_mod, Nat.div_div_eq_div_mul, ← pow_add]

theorem testBit_byteOf (v i j : Nat) (hj : j < 8) :
    (byteOf v i).testBit j = v.testBit (8 * i + j) := by
  unfold byteOf
  rw [Nat.testBit_mod_two_pow]
  simp [hj, testBit_div_pow]

theorem hweight8_byteOf (v i : Nat) :
    hweight8 (byteOf v i) = (List.range 8).countP (fun j => v.testBit (8 * i + j)) := by
  unfold hweight8
  refine List.countP_congr ?_
  intro j hj
  rw [testBit_byteOf v i j (List.mem_range.mp hj)]

theorem popBelow_bytes (v : Nat) :
    popBelow v 40 =
      hweight8 (byteOf v 0) + hweight8 (byteOf v 1) + hweight8 (byteOf v 2) +
        hweight8 (byteOf v 3) + hweight8 (byteOf v 4) := by
  have h8 : ∀ m i, m = 8 * i →
      (List.range 8).countP (fun j => v.testBit (m + j)) = hweight8 (byteOf v i) := by
    intro m i h
    subst h
    exact (hweight8_byteOf v i).symm
  have e0 : popBelow v 8 = popBelow v 0 + hweight8 (byteOf v 0) := by
    rw [show (8 : Nat) = 0 + 8 from rfl, popBelow_add, h8 0 0 rfl]
  have e1 : popBelow v 16 = popBelow v 8 + hweight8 (byteOf v 1) := by
    rw [show (16 : Nat) = 8 + 8 from rfl, popBelow_add, h8 8 1 rfl]
  have e2 : popBelow v 24 = popBelow v 16 + hweight8 (byteOf v 2) := by
    rw [show (24 : Nat) = 16 + 8 from rfl, popBelow_add, h8 16 2 rfl]
  have e3 : popBelow v 32 = popBelow v 24 + hweight8 (byteOf v 3) := by
    rw [show (32 : Nat) = 24 + 8 from rfl, popBelow_add, h8 24 3 rfl]
  have e4 : popBelow v 40 = popBelow v 32 + hweight8 (byteOf v 4) := by
    rw [show (40 : Nat) = 32 + 8 from rfl, popBelow_add, h8 32 4 rfl]
  rw [e4, e3, e2, e1, e0]
  simp [popBelow]

/-- C4: for every 40-bit value, the KSV validator accepts exactly when the
population count over the value's 40 bits (equivalently, the total
population count of its 5 bytes) is exactly 20. The validator is a pure
function of its argument. -/
theorem is_ksv_valid_iff_popcount20 (v : Nat) (hv : v < 2 ^ 40) :
    intel_hdcp_is_ksv_valid (ksvBytesOf v) = true ↔ popBelow v 40 = 20 := by
  have key := popBelow_bytes v
  simp only [intel_hdcp_is_ksv_valid, ksvBytesOf, List.map_cons, List.map_nil,
    List.sum_cons, List.sum_nil, beq_iff_eq, key]
  omega

/-- Witness for C4 at the alternating pattern 0xAAAAAAAAAA, which has
exactly 20 set bits. -/
theorem is_ksv_valid_iff_popcount20_witness :
    (0xAAAAAAAAAA : Nat) < 2 ^ 40 ∧
    (intel_hdcp_is_ksv_valid (ksvBytesOf 0xAAAAAAAAAA) = true ↔
      popBelow 0xAAAAAAAAAA 40 = 20) :=
  ⟨by decide, is_ksv_valid_iff_popcount20 0xAAAAAAAAAA (by decide)⟩

theorem chunk_eq_iff (xs ys : List Nat) (a b : Nat)
    (hx : a + DRM_HDCP_KSV_LEN ≤ xs.length) (hy : b + DRM_HDCP_KSV_LEN ≤ ys.length) :
    (xs.drop a).take DRM_HDCP_KSV_LEN = (ys.drop b).take DRM_HDCP_KSV_LEN ↔
      ∀ k < DRM_HDCP_KSV_LEN, xs.getD (a + k) 0 = ys.getD (b + k) 0 := by
  constructor
  · intro h k hk
    have h1 : xs[a + k]? = ((xs.drop a).take DRM_HDCP_KSV_LEN)[k]? := by
      rw [List.getElem?_take_of_lt hk, List.getElem?_drop]
    have h2 : ys[b + k]? = ((ys.drop b).take DRM_HDCP_KSV_LEN)[k]? := by
      rw [List.getElem?_take_of_lt hk, List.getElem?_drop]
    simp only [List.getD_eq_getElem?_getD, h1, h2, h]
  · intro h
    apply List.ext_getElem?
    intro k
    by_cases hk : k < DRM_HDCP_KSV_LEN
    · rw [List.getElem?_take_of_lt hk, List.getElem?_take_of_lt hk,
        List.getElem?_drop, List.getElem?_drop]
      have hxk : a + k < xs.length := by omega
      have hyk : b + k < ys.length := by omega
      rw [List.getElem?_eq_getElem hxk, List.getElem?_eq_getElem hyk]
      have := h k hk
      rw [List.getD_eq_getElem xs 0 hxk, List.getD_eq_getElem ys 0 hyk] at this
      rw [this]
    · have l1 : ((xs.drop a).take DRM_HDCP_KSV_LEN).length ≤ k := by
        simp [List.length_take, List.length_drop]
        omega
      have l2 : ((ys.drop b).take DRM_HDCP_KSV_LEN).length ≤ k := by
        simp [List.length_take, List.length_drop]
        omega
      rw [List.getElem?_eq_none l1, List.getElem?_eq_none l2]

/-- C5: with the revocation list present and the buffers as long as their
counts declare, the membership check returns true exactly when some
candidate 5-byte slice equals some 5-byte store entry byte-for-byte.
In particular querying a KSV equal to a store entry returns true, and a
KSV differing from every entry in at least one byte returns false. -/
theorem ksvs_revocated_iff_member (c : Connector) (rev ksvs : List Nat) (n : Nat)
    (hl : c.revocated_ksv_list = some rev)
    (hrl : rev.length = DRM_HDCP_KSV_LEN * c.revocated_ksv_cnt)
    (hkl : ksvs.length = DRM_HDCP_KSV_LEN * n) :
    (intel_hdcp_ksvs_revocated c ksvs n = true ↔
      ∃ i < n, ∃ j < c.revocated_ksv_cnt,
        (ksvs.drop (DRM_HDCP_KSV_LEN * i)).take DRM_HDCP_KSV_LEN =
          (rev.drop (DRM_HDCP_KSV_LEN * j)).take DRM_HDCP_KSV_LEN) := by
  unfold intel_hdcp_ksvs_revocated
  rw [hl]
  by_cases hc : c.revocated_ksv_cnt = 0
  · simp [hc]
  · simp only [hc, if_false, List.any_eq_true, List.all_eq_true, List.mem_range,
      beq_iff_eq]
    constructor
    · rintro ⟨i, hi, j, hj, hbytes⟩
      refine ⟨i, hi, j, hj, ?_⟩
      rw [chunk_eq_iff ksvs rev (DRM_HDCP_KSV_LEN * i) (DRM_HDCP_KSV_LEN * j)
        (by simp [DRM_HDCP_KSV_LEN] at *; omega)
        (by simp [DRM_HDCP_KSV_LEN] at *; omega)]
      intro k hk
      exact hbytes k hk
    · rintro ⟨i, hi, j, hj, hchunk⟩
      refine ⟨i, hi, j, hj, ?_⟩
      intro k hk
      rw [chunk_eq_iff ksvs rev (DRM_HDCP_KSV_LEN * i) (DRM_HDCP_KSV_LEN * j)
        (by simp [DRM_HDCP_KSV_LEN] at *; omega)
        (by simp [DRM_HDCP_KSV_LEN] at *; omega)] at hchunk
      exact hchunk k hk

/-- Witness for C5: a store holding (9,9,9,9,9) and a single candidate
equal to it. -/
theorem ksvs_revocated_iff_member_witness :
    intel_hdcp_ksvs_revocated ⟨some [9, 9, 9, 9, 9], 1, 0⟩ [9, 9, 9, 9, 9] 1 = true ↔
      ∃ i < 1, ∃ j < 1,
        (([9, 9, 9, 9, 9] : List Nat).drop (DRM_HDCP_KSV_LEN * i)).take DRM_HDCP_KSV_LEN =
          (([9, 9, 9, 9, 9] : List Nat).drop (DRM_HDCP_KSV_LEN * j)).take DRM_HDCP_KSV_LEN :=
  ksvs_revocated_iff_member ⟨some [9, 9, 9, 9, 9], 1, 0⟩ [9, 9, 9, 9, 9]
    [9, 9, 9, 9, 9] 1 rfl rfl rfl

theorem ksvListAux_count_eq (buf : List Nat) (len : Nat) :
    ∀ fuel pos parsed,
      (ksvListAux buf len fuel pos parsed).2 = ksvCountAux buf len fuel pos parsed := by
  intro fuel
  induction fuel with
  | zero => intro pos parsed; rfl
  | succ f ih =>
    intro pos parsed
    simp only [ksvListAux, ksvCountAux, Nat.add_assoc]
    split
    · simp [ih]
    · rfl

theorem get_revocated_counts_agree (buf : List Nat) (len : Nat) :
    (intel_hdcp_get_revocated_ksvs buf len).2 = intel_hdcp_get_revocated_ksv_count buf len :=
  ksvListAux_count_eq buf len len 0 0

/-- C2 amended: every parse failure reached without an allocation failure
leaves the connector (list, count, blob id) exactly as before; the recorded
blob identifier survives every parse outcome; but on the allocation-failure
path only the count survives — the previous list is destroyed (the
counterexample shows the resulting connector differs from the old one).
The defensive double-count mismatch branch is unreachable, since the two
segment walks always agree. -/
theorem parse_srm_error_atomicity (blob : List Nat) (c : Connector) :
    (∀ e, (intel_hdcp_parse_srm blob true c).1 = Except.error e →
      (intel_hdcp_parse_srm blob true c).2 = c) ∧
    (∀ aOk, (intel_hdcp_parse_srm blob aOk c).2.srm_blob_id = c.srm_blob_id) ∧
    (∀ e, (intel_hdcp_parse_srm blob false c).1 = Except.error e →
      (intel_hdcp_parse_srm blob false c).2.revocated_ksv_cnt = c.revocated_ksv_cnt) ∧
    (∀ aOk id e, (intel_hdcp_parse_srm blob aOk c).1 = Except.error e →
      (intel_hdcp_update_srm (some blob) aOk id c).srm_blob_id = c.srm_blob_id) := by
  have hid : ∀ aOk, (intel_hdcp_parse_srm blob aOk c).2.srm_blob_id = c.srm_blob_id := by
    intro aOk
    simp only [intel_hdcp_parse_srm]
    split_ifs <;> rfl
  refine ⟨?_, hid, ?_, ?_⟩
  · intro e h
    simp only [intel_hdcp_parse_srm] at h ⊢
    split_ifs at h ⊢ with h1 h2 h3 h4 h5 h6 h7
    any_goals rfl
    any_goals simp_all
    exact absurd (get_revocated_counts_agree _ _) h7
  · intro e h
    simp only [intel_hdcp_parse_srm] at h ⊢
    split_ifs at h ⊢ <;> simp_all
  · intro aOk id e h
    simp only [intel_hdcp_update_srm]
    rw [h]
    exact hid aOk

/-- Witness for C2 (amended) at the empty blob, which fails the length
check and leaves the connector untouched. -/
theorem parse_srm_error_atomicity_witness :
    (intel_hdcp_parse_srm [] true connectorOneKsv).2 = connectorOneKsv :=
  (parse_srm_error_atomicity [] connectorOneKsv).1 (-EINVAL) rfl

theorem bksvTry_exhausts (o : AuthOracle) (bv : Nat → List Nat) :
    ∀ fuel i, (∀ k, k < fuel → o.readBksv (i + k) = Except.ok (bv (i + k))) →
      (∀ k, k < fuel → intel_hdcp_is_ksv_valid (bv (i + k)) = false) →
      bksvTry o i fuel = Except.ok none := by
  intro fuel
  induction fuel with
  | zero => intro i _ _; rfl
  | succ f ih =>
    intro i h1 h2
    have r0 := h1 0 (by omega)
    have v0 := h2 0 (by omega)
    rw [Nat.add_zero] at r0 v0
    simp only [bksvTry, r0, v0, Bool.false_eq_true, if_false]
    apply ih (i + 1)
    · intro k hk
      have := h1 (k + 1) (by omega)
      rwa [show i + (k + 1) = i + 1 + k by omega] at this
    · intro k hk
      have := h2 (k + 1) (by omega)
      rwa [show i + (k + 1) = i + 1 + k by omega] at this

/-- C6: in Phase 1, when the port is present, the capability gate passes,
the An acquisition and transmission succeed, and every BKSV read inside the
retry budget returns successfully but with a value the KSV validator
rejects, the authentication attempt returns -ENODEV — always that error,
for every oracle and connector satisfying these premises. -/
theorem auth_bksv_exhaustion_nodev (o : AuthOracle) (dso : DsOracle) (c : Connector)
    (bv : Nat → List Nat)
    (hport : o.digPortNull = false)
    (hcap : capCheck o = Except.ok ())
    (han : o.waitAnReady = true)
    (hwa : o.writeAnAksv = Except.ok ())
    (hrd : ∀ i, i < 3 → o.readBksv i = Except.ok (bv i))
    (hinv : ∀ i, i < 3 → intel_hdcp_is_ksv_valid (bv i) = false) :
    intel_hdcp_auth o dso c = Except.error (-ENODEV) := by
  have hb : bksvTry o 0 2 = Except.ok none := by
    apply bksvTry_exhausts o bv 2 0
    · intro k hk
      simpa using hrd k (by omega)
    · intro k hk
      simpa using hinv k (by omega)
  simp [intel_hdcp_auth, hport, hcap, han, hwa, hb]

/-- An oracle whose BKSV reads always return the all-zero (invalid) KSV and
whose earlier steps all succeed. -/
def authOracleBadBksv : AuthOracle :=
  ⟨false, none, true, Except.ok (), fun _ => Except.ok [0, 0, 0, 0, 0],
   Except.ok false, Except.ok (), true, fun _ => Except.ok 0, fun _ => true, true⟩

/-- Witness for C6 at the concrete always-invalid-BKSV oracle. -/
theorem auth_bksv_exhaustion_nodev_witness :
    intel_hdcp_auth authOracleBadBksv dsOracleTwoDevices connectorEmpty =
      Except.error (-ENODEV) :=
  auth_bksv_exhaustion_nodev authOracleBadBksv dsOracleTwoDevices connectorEmpty
    (fun _ => [0, 0, 0, 0, 0]) rfl rfl rfl rfl (fun _ _ => rfl) (fun _ _ => rfl)

theorem ksvLoop_leftovers_le (o : DsOracle) :
    ∀ chunks (st st' : LoopSt), st.sha_leftovers ≤ 3 →
      ksvLoop o chunks st = (Except.ok (), st') → st'.sha_leftovers ≤ 3 := by
  intro chunks
  induction chunks with
  | nil =>
    intro st st' h3 heq
    simp only [ksvLoop, Prod.mk.injEq] at heq
    rw [← heq.2]
    exact h3
  | cons ksv rest ih =>
    intro st st' h3 heq
    simp only [ksvLoop] at heq
    repeat' split at heq
    all_goals
      first
      | (injection heq with h1 h2
         simp at h1)
      | (refine ih _ st' ?_ heq
         dsimp only [DRM_HDCP_KSV_LEN] at *
         omega)

theorem emitSeq_noInv (o : DsOracle) :
    ∀ l (st : LoopSt), Ev.invalidLeftovers ∉ st.trace →
      Ev.invalidLeftovers ∉ (emitSeq o l st).2.trace := by
  intro l
  induction l with
  | nil => intro st h; exact h
  | cons p rest ih =>
    intro st h
    obtain ⟨w, v⟩ := p
    cases w <;>
      (simp only [emitSeq]
       split
       · simp_all [writeSha]
       · apply ih
         simp_all [writeSha])

theorem zeroFill_noInv (o : DsOracle) :
    ∀ fuel (st : LoopSt), Ev.invalidLeftovers ∉ st.trace →
      Ev.invalidLeftovers ∉ (zeroFill o fuel st).2.trace := by
  intro fuel
  induction fuel with
  | zero => intro st h; exact h
  | succ f ih =>
    intro st h
    simp only [zeroFill]
    split
    · split
      · simp_all [writeSha]
      · apply ih
        simp_all [writeSha]
    · exact h

theorem ksvLoop_noInv (o : DsOracle) :
    ∀ chunks (st : LoopSt), Ev.invalidLeftovers ∉ st.trace →
      Ev.invalidLeftovers ∉ (ksvLoop o chunks st).2.trace := by
  intro chunks
  induction chunks with
  | nil => intro st h; exact h
  | cons ksv rest ih =>
    intro st h
    simp only [ksvLoop]
    repeat' split
    all_goals
      first
      | simp_all [writeSha]
      | (apply ih
         simp_all [writeSha])

theorem tailSplice_noInv (o : DsOracle) (b0 b1 : Nat) (st : LoopSt)
    (h3 : st.sha_leftovers ≤ 3) (h : Ev.invalidLeftovers ∉ st.trace) :
    Ev.invalidLeftovers ∉ (tailSplice o b0 b1 st).2.trace := by
  unfold tailSplice
  split_ifs with h0 h1 h2 h3'
  · exact emitSeq_noInv o _ st h
  · exact emitSeq_noInv o _ st h
  · exact emitSeq_noInv o _ st h
  · exact emitSeq_noInv o _ st h
  · omega

theorem vprimeReads_noInv (o : DsOracle) :
    ∀ k i, Ev.invalidLeftovers ∉ (vprimeReads o i k).2 := by
  intro k
  induction k with
  | zero => intro i; simp [vprimeReads]
  | succ n ih =>
    intro i
    simp only [vprimeReads]
    split
    · simp
    · simp [ih (i + 1)]

theorem ksvLoop_leftovers_le₂ (o : DsOracle) (chunks : List (List Nat)) (st : LoopSt)
    (h3 : st.sha_leftovers ≤ 3) (h1 : (ksvLoop o chunks st).1 = Except.ok ()) :
    (ksvLoop o chunks st).2.sha_leftovers ≤ 3 := by
  apply ksvLoop_leftovers_le o chunks st _ h3
  exact Prod.ext h1 rfl

theorem noInv_append (l1 l2 : List Ev) (h1 : Ev.invalidLeftovers ∉ l1)
    (h2 : Ev.invalidLeftovers ∉ l2) : Ev.invalidLeftovers ∉ l1 ++ l2 := by
  simp only [List.mem_append]
  intro hmem
  rcases hmem with hmem | hmem
  · exact h1 hmem
  · exact h2 hmem

/-- C10: (a) the KSV streaming loop preserves the invariant that the
leftover-byte count is at most 3: whatever the oracle, the chunk list and
the iteration, a completed loop run starting with sha_leftovers ≤ 3 ends
with sha_leftovers ≤ 3 (and by induction the bound holds at every
iteration boundary); (b) consequently, in every run of
intel_hdcp_auth_downstream — for every oracle and connector — the
fall-through invalid-number-of-leftovers branch of the splice is never
taken: its marker event never appears in the trace. -/
theorem sha_leftovers_invariant :
    (∀ (o : DsOracle) (chunks : List (List Nat)) (st st' : LoopSt),
      st.sha_leftovers ≤ 3 → ksvLoop o chunks st = (Except.ok (), st') →
      st'.sha_leftovers ≤ 3) ∧
    (∀ (o : DsOracle) (c : Connector),
      Ev.invalidLeftovers ∉ (intel_hdcp_auth_downstream o c).2) := by
  refine ⟨ksvLoop_leftovers_le, fun o c => ?_⟩
  unfold intel_hdcp_auth_downstream
  cases hp : o.pollKsv with
  | error e => simp
  | ok u =>
    cases hb : o.bstatus with
    | error e => simp
    | ok bs =>
      dsimp only
      split
      · simp
      · split
        · simp
        · split
          · simp
          · cases hf : o.ksvFifo with
            | error e => simp
            | ok fifo =>
              dsimp only
              split
              · simp
              · split
                · simp [vprimeReads_noInv]
                · split
                  · apply ksvLoop_noInv
                    simp [vprimeReads_noInv]
                  · rename_i heqK
                    split
                    · apply tailSplice_noInv
                      · exact ksvLoop_leftovers_le₂ o _ _ (by simp) heqK
                      · apply ksvLoop_noInv
                        simp [vprimeReads_noInv]
                    · split
                      · apply zeroFill_noInv
                        refine noInv_append _ _ ?_ (by simp)
                        apply tailSplice_noInv
                        · exact ksvLoop_leftovers_le₂ o _ _ (by simp) heqK
                        · apply ksvLoop_noInv
                          simp [vprimeReads_noInv]
                      · dsimp only [writeSha]
                        split
                        · refine noInv_append _ _ ?_ (by simp)
                          apply zeroFill_noInv
                          refine noInv_append _ _ ?_ (by simp)
                          apply tailSplice_noInv
                          · exact ksvLoop_leftovers_le₂ o _ _ (by simp) heqK
                          · apply ksvLoop_noInv
                            simp [vprimeReads_noInv]
                        · split
                          · refine noInv_append _ _ (noInv_append _ _ ?_ (by simp)) (by simp)
                            apply zeroFill_noInv
                            refine noInv_append _ _ ?_ (by simp)
                            apply tailSplice_noInv
                            · exact ksvLoop_leftovers_le₂ o _ _ (by simp) heqK
                            · apply ksvLoop_noInv
                              simp [vprimeReads_noInv]
                          · split
                            · refine noInv_append _ _ (noInv_append _ _ ?_ (by simp)) (by simp)
                              apply zeroFill_noInv
                              refine noInv_append _ _ ?_ (by simp)
                              apply tailSplice_noInv
                              · exact ksvLoop_leftovers_le₂ o _ _ (by simp) heqK
                              · apply ksvLoop_noInv
                                simp [vprimeReads_noInv]
                            · refine noInv_append _ _ (noInv_append _ _ ?_ (by simp)) (by simp)
                              apply zeroFill_noInv
                              refine noInv_append _ _ ?_ (by simp)
                              apply tailSplice_noInv
                              · exact ksvLoop_leftovers_le₂ o _ _ (by simp) heqK
                              · apply ksvLoop_noInv
                                simp [vprimeReads_noInv]

/-- Witness for C10: the invariant instantiated on the concrete
two-device run (whose loop completes successfully), plus the absence of
the fall-through marker on that run. -/
theorem sha_leftovers_invariant_witness :
    (ksvLoop dsOracleTwoDevices (ksvChunks (List.replicate 10 0) 2)
      ⟨0, 0, 0, 0, []⟩).2.sha_leftovers ≤ 3 ∧
    Ev.invalidLeftovers ∉ (intel_hdcp_auth_downstream dsOracleTwoDevices connectorEmpty).2 :=
  ⟨sha_leftovers_invariant.1 dsOracleTwoDevices (ksvChunks (List.replicate 10 0) 2)
      ⟨0, 0, 0, 0, []⟩ _ (by decide) rfl,
   sha_leftovers_invariant.2 dsOracleTwoDevices connectorEmpty⟩

end IntelHdcp
